import Mathlib

set_option maxRecDepth 100000

/-!
Shallow embedding of the Solidity contract `ZigFHEBridge` (src/unnamed/part_000).

Modelling conventions:
* `uint256`, `bytes32`, `address` and the opaque `euint32` ciphertext handle are
  all modelled as `Nat` (values are compared for equality only; arithmetic on
  them is limited to the `bindingCount` counter, which can never reach `2^256`
  from any reachable state).
* `bytes` values (`cleartexts`, `proof`) are `List Nat` of byte values.
* Solidity mappings are total functions with the zero record as default, as in
  the EVM.
* `require` / library reverts are modelled by returning `Except.error`; since a
  revert rolls back the whole call, an error carries no new state.
* `FHE.checkSignatures` is an external verification capability; it is passed as
  a boolean-valued parameter `cs requestId cleartexts proof` (true = proof
  verifies, false = the library reverts).
* `keccak256 ∘ abi.encodePacked` is modelled byte-accurately for the packing
  (`abi.encodePacked` of `uint256` is 32 big-endian bytes, of `address` 20
  bytes, of a string literal its ASCII bytes) and the hash itself is modelled
  as an injective function of the byte string (`Nat.pair` of length and radix-256
  value), reflecting the standard collision-freeness assumption on keccak256.
-/

/-- Big-endian byte string of width `w` for the value `n` (low `8*w` bits),
as produced by `abi.encodePacked` for a fixed-width integer. -/
def toBytesBE : Nat → Nat → List Nat
  | 0, _ => []
  | w + 1, n => toBytesBE w (n / 256) ++ [n % 256]

/-- Radix-256 value of a big-endian byte string. -/
def fromBytesBE (bs : List Nat) : Nat :=
  bs.foldl (fun a b => a * 256 + b) 0

/-- ASCII bytes of the string literal `"count"` used in
`abi.encodePacked("count", bindingId, block.timestamp)`. -/
def countBytes : List Nat := [99, 111, 117, 110, 116]

/-- Model of `keccak256` on a byte string: injective on byte strings
(pairs the length with the radix-256 value), standing in for the
collision-freeness of the real hash. -/
def keccakModel (bs : List Nat) : Nat :=
  Nat.pair bs.length (fromBytesBE bs)

/-- `abi.encodePacked(bindingId, block.timestamp, msg.sender)`:
32 + 32 + 20 big-endian bytes. -/
def packBinding (bindingId ts sender : Nat) : List Nat :=
  toBytesBE 32 bindingId ++ toBytesBE 32 ts ++ toBytesBE 20 sender

/-- `abi.encodePacked("count", bindingId, block.timestamp)`:
5 + 32 + 32 bytes. -/
def packCount (bindingId ts : Nat) : List Nat :=
  countBytes ++ toBytesBE 32 bindingId ++ toBytesBE 32 ts

/-- Task id minted by `requestBindingDecryption`:
`uint256(keccak256(abi.encodePacked(bindingId, block.timestamp, msg.sender)))`. -/
def bindingTaskId (bindingId ts sender : Nat) : Nat :=
  keccakModel (packBinding bindingId ts sender)

/-- Task id minted by `requestCountDecryption`:
`uint256(keccak256(abi.encodePacked("count", bindingId, block.timestamp)))`. -/
def countTaskId (bindingId ts : Nat) : Nat :=
  keccakModel (packCount bindingId ts)

/-- `FHE.toBytes32` on an opaque ciphertext handle (handles are already `Nat`). -/
def toBytes32 (h : Nat) : Nat := h

/-- `bytes32ToUint` of the source (bytes32 values are already `Nat`). -/
def bytes32ToUint (b : Nat) : Nat := b

/-- `struct BindingRecord`. -/
structure BindingRecord where
  id : Nat
  uploader : Nat
  abiHash : Nat
  metadataHash : Nat
  encryptedSignature : Nat
  createdAt : Nat
deriving DecidableEq

/-- Zero record: the EVM default value of `BindingRecord`. -/
def emptyBinding : BindingRecord := ⟨0, 0, 0, 0, 0, 0⟩

/-- `struct DecryptTask`. -/
structure DecryptTask where
  id : Nat
  bindingId : Nat
  requester : Nat
  completed : Bool
  createdAt : Nat
deriving DecidableEq

/-- Zero record: the EVM default value of `DecryptTask`. -/
def emptyTask : DecryptTask := ⟨0, 0, 0, false, 0⟩

/-- Emitted events. -/
inductive Event where
  | bindingRegistered (id uploader : Nat)
  | decryptionRequested (taskId bindingId : Nat)
  | decryptionCompleted (taskId bindingId : Nat)
deriving DecidableEq

/-- Callback selectors handed to `FHE.requestDecryption`. -/
inductive Selector where
  | handleDecryption
  | handleCountDecryption
deriving DecidableEq

/-- An outbound `FHE.requestDecryption(ciphertexts, selector)` call. -/
structure OracleCall where
  ciphertexts : List Nat
  selector : Selector
deriving DecidableEq

/-- Reverts of the contract: the four `require` messages, the
`FHE.checkSignatures` revert, and the `abi.decode` revert. -/
inductive Err where
  | invalidBinding
  | notFound
  | unknownRequest
  | alreadyCompleted
  | invalidProof
  | decodeFailure
deriving DecidableEq

/-- Contract storage. -/
structure ContractState where
  bindingCount : Nat
  bindings : Nat → BindingRecord
  tasks : Nat → DecryptTask
  abiHashToBinding : Nat → Nat
  requestToTaskId : Nat → Nat

/-- Storage of a freshly deployed contract: all slots zero. -/
def initState : ContractState :=
  { bindingCount := 0
    bindings := fun _ => emptyBinding
    tasks := fun _ => emptyTask
    abiHashToBinding := fun _ => 0
    requestToTaskId := fun _ => 0 }

/-- `registerBinding(abiHash, metadataHash, encryptedSignature)` called by
`sender` at time `ts`. Never reverts. Returns the new id, the new state and
the emitted events. -/
def registerBinding (s : ContractState) (sender abiHash metadataHash encryptedSignature ts : Nat) :
    Nat × ContractState × List Event :=
  let id := s.bindingCount + 1
  (id,
    { s with
      bindingCount := id
      bindings := fun k =>
        if k = id then ⟨id, sender, abiHash, metadataHash, encryptedSignature, ts⟩
        else s.bindings k
      abiHashToBinding := fun h => if h = abiHash then id else s.abiHashToBinding h },
    [Event.bindingRegistered id sender])

/-- `submitExternalEncryptedCount(count)` called by `sender` at time `ts`:
stores a synthetic binding with zero hashes; does not touch the
content-hash index. -/
def submitExternalEncryptedCount (s : ContractState) (sender ts count : Nat) :
    Nat × ContractState × List Event :=
  let id := s.bindingCount + 1
  (id,
    { s with
      bindingCount := id
      bindings := fun k =>
        if k = id then ⟨id, sender, 0, 0, count, ts⟩
        else s.bindings k },
    [Event.bindingRegistered id sender])

/-- `requestBindingDecryption(bindingId)` called by `sender` at time `ts`;
`reqId` is the oracle-chosen value returned by `FHE.requestDecryption`.
Returns the minted task id, the new state, the events, and the outbound
oracle calls. -/
def requestBindingDecryption (s : ContractState) (sender ts reqId bindingId : Nat) :
    Except Err (Nat × ContractState × List Event × List OracleCall) :=
  let r := s.bindings bindingId
  if r.id = 0 then .error .invalidBinding
  else
    let taskId := bindingTaskId bindingId ts sender
    .ok (taskId,
      { s with
        tasks := fun k =>
          if k = taskId then ⟨taskId, bindingId, sender, false, ts⟩ else s.tasks k
        requestToTaskId := fun q => if q = reqId then taskId else s.requestToTaskId q },
      [Event.decryptionRequested taskId bindingId],
      [⟨[toBytes32 r.encryptedSignature], Selector.handleDecryption⟩])

/-- `requestCountDecryption(bindingId)` called by `sender` at time `ts`;
`reqId` is the oracle-chosen request identifier. -/
def requestCountDecryption (s : ContractState) (sender ts reqId bindingId : Nat) :
    Except Err (Nat × ContractState × List Event × List OracleCall) :=
  let r := s.bindings bindingId
  if r.id = 0 then .error .notFound
  else
    let taskId := countTaskId bindingId ts
    .ok (taskId,
      { s with
        tasks := fun k =>
          if k = taskId then ⟨taskId, bindingId, sender, false, ts⟩ else s.tasks k
        requestToTaskId := fun q => if q = reqId then taskId else s.requestToTaskId q },
      [Event.decryptionRequested taskId bindingId],
      [⟨[toBytes32 r.encryptedSignature], Selector.handleCountDecryption⟩])

/-- `handleDecryption(requestId, cleartexts, proof)`. `cs` models
`FHE.checkSignatures` (false = the library reverts). -/
def handleDecryption (cs : Nat → List Nat → List Nat → Bool) (s : ContractState)
    (requestId : Nat) (cleartexts proof : List Nat) :
    Except Err (ContractState × List Event) :=
  let taskId := s.requestToTaskId requestId
  if taskId = 0 then .error .unknownRequest
  else if (s.tasks taskId).completed then .error .alreadyCompleted
  else if cs requestId cleartexts proof = false then .error .invalidProof
  else
    .ok ({ s with
            tasks := fun k =>
              if k = taskId then { s.tasks taskId with completed := true } else s.tasks k },
          [Event.decryptionCompleted taskId (s.tasks taskId).bindingId])

/-- `abi.decode(cleartexts, (uint32))`: the generated decoder reverts when
the data is shorter than one 32-byte head word, reads the first 32-byte
word (trailing bytes are ignored), and reverts unless the word equals its
uint32 cleanup — its upper 28 bytes are zero. On success it yields the
word's radix-256 value. -/
def decodeUint32 (bs : List Nat) : Option Nat :=
  if 32 ≤ bs.length ∧ (bs.take 28).all (fun b => b = 0) then some (fromBytesBE (bs.take 32))
  else none

/-- `handleCountDecryption(requestId, cleartexts, proof)`: like
`handleDecryption` but decodes the cleartexts as a `uint32` before
completing; the decode revert aborts the whole call. -/
def handleCountDecryption (cs : Nat → List Nat → List Nat → Bool) (s : ContractState)
    (requestId : Nat) (cleartexts proof : List Nat) :
    Except Err (ContractState × List Event) :=
  let taskId := s.requestToTaskId requestId
  if taskId = 0 then .error .unknownRequest
  else if (s.tasks taskId).completed then .error .alreadyCompleted
  else if cs requestId cleartexts proof = false then .error .invalidProof
  else if decodeUint32 cleartexts = none then .error .decodeFailure
  else
    .ok ({ s with
            tasks := fun k =>
              if k = taskId then { s.tasks taskId with completed := true } else s.tasks k },
          [Event.decryptionCompleted taskId (s.tasks taskId).bindingId])

/-- `lookupBindingByAbi(abiHash)`. -/
def lookupBindingByAbi (s : ContractState) (abiHash : Nat) : Nat :=
  s.abiHashToBinding abiHash

/-- `getBinding(id)`: `(uploader, abiHash, metadataHash, encryptedSignature, createdAt)`. -/
def getBinding (s : ContractState) (id : Nat) : Nat × Nat × Nat × Nat × Nat :=
  let b := s.bindings id
  (b.uploader, b.abiHash, b.metadataHash, b.encryptedSignature, b.createdAt)

/-- `isTaskCompleted(taskId)`. -/
def isTaskCompleted (s : ContractState) (taskId : Nat) : Bool :=
  (s.tasks taskId).completed

/-- One external call into the contract, with its environment
(`msg.sender`, `block.timestamp`, oracle-chosen request id). -/
inductive Op where
  | registerBinding (sender ts abiHash metadataHash encryptedSignature : Nat)
  | submitExternalEncryptedCount (sender ts count : Nat)
  | requestBindingDecryption (sender ts reqId bindingId : Nat)
  | requestCountDecryption (sender ts reqId bindingId : Nat)
  | handleDecryption (reqId : Nat) (cleartexts proof : List Nat)
  | handleCountDecryption (reqId : Nat) (cleartexts proof : List Nat)
deriving DecidableEq

/-- Execute one call: a revert leaves the state unchanged and produces no
events and no oracle calls. -/
def stepFull (cs : Nat → List Nat → List Nat → Bool) (s : ContractState) :
    Op → ContractState × List Event × List OracleCall
  | .registerBinding sender ts a m e =>
      let out := registerBinding s sender a m e ts
      (out.2.1, out.2.2, [])
  | .submitExternalEncryptedCount sender ts count =>
      let out := submitExternalEncryptedCount s sender ts count
      (out.2.1, out.2.2, [])
  | .requestBindingDecryption sender ts reqId bindingId =>
      match requestBindingDecryption s sender ts reqId bindingId with
      | .ok out => (out.2.1, out.2.2.1, out.2.2.2)
      | .error _ => (s, [], [])
  | .requestCountDecryption sender ts reqId bindingId =>
      match requestCountDecryption s sender ts reqId bindingId with
      | .ok out => (out.2.1, out.2.2.1, out.2.2.2)
      | .error _ => (s, [], [])
  | .handleDecryption reqId c p =>
      match handleDecryption cs s reqId c p with
      | .ok out => (out.1, out.2, [])
      | .error _ => (s, [], [])
  | .handleCountDecryption reqId c p =>
      match handleCountDecryption cs s reqId c p with
      | .ok out => (out.1, out.2, [])
      | .error _ => (s, [], [])

/-- State after one call. -/
def step (cs : Nat → List Nat → List Nat → Bool) (s : ContractState) (op : Op) :
    ContractState :=
  (stepFull cs s op).1

/-- State after a sequence of calls. -/
def exec (cs : Nat → List Nat → List Nat → Bool) (s : ContractState) (ops : List Op) :
    ContractState :=
  ops.foldl (step cs) s

/-- A verification environment in which every proof checks (used to build
concrete executions). -/
def csTrue : Nat → List Nat → List Nat → Bool := fun _ _ _ => true

/-- Error component of a call result, if any. -/
def errOf {α : Type} : Except Err α → Option Err
  | .error e => some e
  | .ok _ => none

/-! ### Byte-string arithmetic for the packed task-id hashes -/

theorem toBytesBE_length (w n : Nat) : (toBytesBE w n).length = w := by
  induction w generalizing n with
  | zero => rfl
  | succ w ih => simp [toBytesBE, ih]

theorem foldl_radix (ys : List Nat) (a : Nat) :
    ys.foldl (fun x b => x * 256 + b) a =
      a * 256 ^ ys.length + ys.foldl (fun x b => x * 256 + b) 0 := by
  induction ys generalizing a with
  | nil => simp
  | cons y ys ih =>
    simp only [List.foldl_cons, List.length_cons, Nat.zero_mul, Nat.zero_add]
    rw [ih (a * 256 + y), ih y]
    ring

theorem fromBytesBE_append (xs ys : List Nat) :
    fromBytesBE (xs ++ ys) = fromBytesBE xs * 256 ^ ys.length + fromBytesBE ys := by
  simp only [fromBytesBE, List.foldl_append]
  exact foldl_radix ys (xs.foldl (fun a b => a * 256 + b) 0)

theorem fromBytesBE_toBytesBE (w n : Nat) :
    fromBytesBE (toBytesBE w n) = n % 256 ^ w := by
  induction w generalizing n with
  | zero => simp [toBytesBE, fromBytesBE, Nat.mod_one]
  | succ w ih =>
    rw [toBytesBE, fromBytesBE_append, ih]
    simp only [fromBytesBE, List.length_cons, List.length_nil, List.foldl]
    have h1 : 256 ^ (w + 1) = 256 * 256 ^ w := by ring
    rw [h1, Nat.mod_mul]
    ring

theorem packBinding_val (b ts a : Nat) :
    fromBytesBE (packBinding b ts a) =
      (b % 256 ^ 32) * 256 ^ 52 + (ts % 256 ^ 32) * 256 ^ 20 + a % 256 ^ 20 := by
  simp only [packBinding, fromBytesBE_append, fromBytesBE_toBytesBE,
    List.length_append, toBytesBE_length]
  ring

theorem packCount_val (b ts : Nat) :
    fromBytesBE (packCount b ts) =
      fromBytesBE countBytes * 256 ^ 64 + (b % 256 ^ 32) * 256 ^ 32 + ts % 256 ^ 32 := by
  simp only [packCount, fromBytesBE_append, fromBytesBE_toBytesBE,
    List.length_append, toBytesBE_length]
  ring

theorem packBinding_length (b ts a : Nat) : (packBinding b ts a).length = 84 := by
  simp [packBinding, toBytesBE_length]

theorem packCount_length (b ts : Nat) : (packCount b ts).length = 69 := by
  simp [packCount, countBytes, toBytesBE_length]

theorem bindingTaskId_inj (b ts a b' ts' a' : Nat)
    (hb : b < 256 ^ 32) (hts : ts < 256 ^ 32) (ha : a < 256 ^ 20)
    (hb' : b' < 256 ^ 32) (hts' : ts' < 256 ^ 32) (ha' : a' < 256 ^ 20) :
    bindingTaskId b ts a = bindingTaskId b' ts' a' ↔ b = b' ∧ ts = ts' ∧ a = a' := by
  constructor
  · intro h
    simp only [bindingTaskId, keccakModel, Nat.pair_eq_pair] at h
    have hval := h.2
    rw [packBinding_val, packBinding_val, Nat.mod_eq_of_lt hb, Nat.mod_eq_of_lt hts,
      Nat.mod_eq_of_lt ha, Nat.mod_eq_of_lt hb', Nat.mod_eq_of_lt hts',
      Nat.mod_eq_of_lt ha'] at hval
    norm_num at hval hb hts ha hb' hts' ha'
    omega
  · rintro ⟨rfl, rfl, rfl⟩
    rfl

theorem countTaskId_inj (b ts b' ts' : Nat)
    (hb : b < 256 ^ 32) (hts : ts < 256 ^ 32)
    (hb' : b' < 256 ^ 32) (hts' : ts' < 256 ^ 32) :
    countTaskId b ts = countTaskId b' ts' ↔ b = b' ∧ ts = ts' := by
  constructor
  · intro h
    simp only [countTaskId, keccakModel, Nat.pair_eq_pair] at h
    have hval := h.2
    rw [packCount_val, packCount_val, Nat.mod_eq_of_lt hb, Nat.mod_eq_of_lt hts,
      Nat.mod_eq_of_lt hb', Nat.mod_eq_of_lt hts'] at hval
    norm_num at hval hb hts hb' hts'
    omega
  · rintro ⟨rfl, rfl⟩
    rfl

theorem bindingTaskId_ne_countTaskId (b ts a b' ts' : Nat) :
    bindingTaskId b ts a ≠ countTaskId b' ts' := by
  intro h
  simp only [bindingTaskId, countTaskId, keccakModel, Nat.pair_eq_pair] at h
  rw [packBinding_length, packCount_length] at h
  exact absurd h.1 (by norm_num)

/-! ### Claim C8: register/get round trip and counter increment -/

/-- C8: a successful `registerBinding` followed by `getBinding` on the returned
id yields exactly the supplied attributes (uploader, content hash, metadata
hash, ciphertext handle, timestamp), and `bindingCount` increases by exactly
one. -/
theorem register_get_roundtrip (s : ContractState) (sender a m e ts : Nat) :
    getBinding (registerBinding s sender a m e ts).2.1 (registerBinding s sender a m e ts).1 =
      (sender, a, m, e, ts) ∧
    (registerBinding s sender a m e ts).2.1.bindingCount = s.bindingCount + 1 := by
  simp [registerBinding, getBinding]

/-! ### Claim C7: decryption request on an unknown binding reverts cleanly -/

/-- C7: when no binding is registered under `bindingId` (its stored record id
is the zero sentinel), both request entry points revert (with the reverts the
spec classifies as `NotFound`: "Invalid binding" resp. "Not found"), so no
task is created, no oracle request is issued, no correlation entry is
recorded, and no event is emitted. -/
theorem request_unknown_binding_reverts (cs : Nat → List Nat → List Nat → Bool)
    (s : ContractState) (sender ts reqId bindingId : Nat)
    (h : (s.bindings bindingId).id = 0) :
    requestBindingDecryption s sender ts reqId bindingId = .error .invalidBinding ∧
    requestCountDecryption s sender ts reqId bindingId = .error .notFound ∧
    stepFull cs s (.requestBindingDecryption sender ts reqId bindingId) = (s, [], []) ∧
    stepFull cs s (.requestCountDecryption sender ts reqId bindingId) = (s, [], []) := by
  simp [requestBindingDecryption, requestCountDecryption, stepFull, h]

/-- Witness for C7 at a concrete input: the freshly deployed contract has no
binding 1, and both request paths revert there. -/
theorem request_unknown_binding_reverts_witness :
    (initState.bindings 1).id = 0 ∧
    (requestBindingDecryption initState 5 2 7 1 = .error .invalidBinding ∧
     requestCountDecryption initState 5 2 7 1 = .error .notFound ∧
     stepFull csTrue initState (.requestBindingDecryption 5 2 7 1) = (initState, [], []) ∧
     stepFull csTrue initState (.requestCountDecryption 5 2 7 1) = (initState, [], [])) :=
  ⟨rfl, request_unknown_binding_reverts csTrue initState 5 2 7 1 rfl⟩

/-! ### Claim C10: `isTaskCompleted` on a task id that was never created -/

/-- Does the call mint task id `t`? Task ids are minted only by the two
request entry points, deterministically from the call's inputs. -/
def mintsTask (t : Nat) : Op → Bool
  | .requestBindingDecryption sender ts _ bindingId => bindingTaskId bindingId ts sender == t
  | .requestCountDecryption _ ts _ bindingId => countTaskId bindingId ts == t
  | _ => false

theorem step_preserves_unminted (cs : Nat → List Nat → List Nat → Bool)
    (s : ContractState) (op : Op) (t : Nat)
    (hop : mintsTask t op = false)
    (h1 : (s.tasks t).completed = false)
    (h2 : ∀ r, s.requestToTaskId r = t → t = 0) :
    ((step cs s op).tasks t).completed = false ∧
    (∀ r, (step cs s op).requestToTaskId r = t → t = 0) := by
  cases op with
  | registerBinding sender ts a m e =>
    exact ⟨h1, h2⟩
  | submitExternalEncryptedCount sender ts count =>
    exact ⟨h1, h2⟩
  | requestBindingDecryption sender ts reqId bindingId =>
    simp only [mintsTask, beq_eq_false_iff_ne, ne_eq] at hop
    by_cases hb : (s.bindings bindingId).id = 0
    · have hstep : step cs s (.requestBindingDecryption sender ts reqId bindingId) = s := by
        simp [step, stepFull, requestBindingDecryption, hb]
      rw [hstep]
      exact ⟨h1, h2⟩
    · have hstep : step cs s (.requestBindingDecryption sender ts reqId bindingId) =
        { s with
          tasks := fun k =>
            if k = bindingTaskId bindingId ts sender then
              ⟨bindingTaskId bindingId ts sender, bindingId, sender, false, ts⟩
            else s.tasks k
          requestToTaskId := fun q =>
            if q = reqId then bindingTaskId bindingId ts sender
            else s.requestToTaskId q } := by
        simp [step, stepFull, requestBindingDecryption, hb]
      rw [hstep]
      dsimp only
      refine ⟨?_, ?_⟩
      · rw [if_neg (fun h => hop h.symm)]
        exact h1
      · intro r
        by_cases hr : r = reqId
        · rw [if_pos hr]
          intro hcontra
          exact absurd hcontra hop
        · rw [if_neg hr]
          exact h2 r
  | requestCountDecryption sender ts reqId bindingId =>
    simp only [mintsTask, beq_eq_false_iff_ne, ne_eq] at hop
    by_cases hb : (s.bindings bindingId).id = 0
    · have hstep : step cs s (.requestCountDecryption sender ts reqId bindingId) = s := by
        simp [step, stepFull, requestCountDecryption, hb]
      rw [hstep]
      exact ⟨h1, h2⟩
    · have hstep : step cs s (.requestCountDecryption sender ts reqId bindingId) =
        { s with
          tasks := fun k =>
            if k = countTaskId bindingId ts then
              ⟨countTaskId bindingId ts, bindingId, sender, false, ts⟩
            else s.tasks k
          requestToTaskId := fun q =>
            if q = reqId then countTaskId bindingId ts
            else s.requestToTaskId q } := by
        simp [step, stepFull, requestCountDecryption, hb]
      rw [hstep]
      dsimp only
      refine ⟨?_, ?_⟩
      · rw [if_neg (fun h => hop h.symm)]
        exact h1
      · intro r
        by_cases hr : r = reqId
        · rw [if_pos hr]
          intro hcontra
          exact absurd hcontra hop
        · rw [if_neg hr]
          exact h2 r
  | handleDecryption reqId c p =>
    by_cases hz : s.requestToTaskId reqId = 0
    · have hstep : step cs s (.handleDecryption reqId c p) = s := by
        simp [step, stepFull, handleDecryption, hz]
      rw [hstep]
      exact ⟨h1, h2⟩
    · have hne : s.requestToTaskId reqId ≠ t := fun he => hz (he.trans (h2 reqId he))
      by_cases hc : (s.tasks (s.requestToTaskId reqId)).completed
      · have hstep : step cs s (.handleDecryption reqId c p) = s := by
          simp [step, stepFull, handleDecryption, hz, hc]
        rw [hstep]
        exact ⟨h1, h2⟩
      · cases hcs : cs reqId c p with
        | false =>
          have hstep : step cs s (.handleDecryption reqId c p) = s := by
            simp [step, stepFull, handleDecryption, hz, hc, hcs]
          rw [hstep]
          exact ⟨h1, h2⟩
        | true =>
          have hstep : step cs s (.handleDecryption reqId c p) =
            { s with
              tasks := fun k =>
                if k = s.requestToTaskId reqId then
                  { s.tasks (s.requestToTaskId reqId) with completed := true }
                else s.tasks k } := by
            simp [step, stepFull, handleDecryption, hz, hc, hcs]
          rw [hstep]
          dsimp only
          refine ⟨?_, h2⟩
          rw [if_neg (fun h => hne h.symm)]
          exact h1
  | handleCountDecryption reqId c p =>
    by_cases hz : s.requestToTaskId reqId = 0
    · have hstep : step cs s (.handleCountDecryption reqId c p) = s := by
        simp [step, stepFull, handleCountDecryption, hz]
      rw [hstep]
      exact ⟨h1, h2⟩
    · have hne : s.requestToTaskId reqId ≠ t := fun he => hz (he.trans (h2 reqId he))
      by_cases hc : (s.tasks (s.requestToTaskId reqId)).completed
      · have hstep : step cs s (.handleCountDecryption reqId c p) = s := by
          simp [step, stepFull, handleCountDecryption, hz, hc]
        rw [hstep]
        exact ⟨h1, h2⟩
      · cases hcs : cs reqId c p with
        | false =>
          have hstep : step cs s (.handleCountDecryption reqId c p) = s := by
            simp [step, stepFull, handleCountDecryption, hz, hc, hcs]
          rw [hstep]
          exact ⟨h1, h2⟩
        | true =>
          by_cases hd : decodeUint32 c = none
          · have hstep : step cs s (.handleCountDecryption reqId c p) = s := by
              simp [step, stepFull, handleCountDecryption, hz, hc, hcs, hd]
            rw [hstep]
            exact ⟨h1, h2⟩
          · have hstep : step cs s (.handleCountDecryption reqId c p) =
              { s with
                tasks := fun k =>
                  if k = s.requestToTaskId reqId then
                    { s.tasks (s.requestToTaskId reqId) with completed := true }
                  else s.tasks k } := by
              simp [step, stepFull, handleCountDecryption, hz, hc, hcs, hd]
            rw [hstep]
            dsimp only
            refine ⟨?_, h2⟩
            rw [if_neg (fun h => hne h.symm)]
            exact h1

theorem exec_preserves_unminted (cs : Nat → List Nat → List Nat → Bool)
    (ops : List Op) (s : ContractState) (t : Nat)
    (hops : ∀ op ∈ ops, mintsTask t op = false)
    (h1 : (s.tasks t).completed = false)
    (h2 : ∀ r, s.requestToTaskId r = t → t = 0) :
    ((exec cs s ops).tasks t).completed = false ∧
    (∀ r, (exec cs s ops).requestToTaskId r = t → t = 0) := by
  induction ops generalizing s with
  | nil => exact ⟨h1, h2⟩
  | cons op ops ih =>
    have hstep := step_preserves_unminted cs s op t (hops op (List.mem_cons_self op ops)) h1 h2
    exact ih (step cs s op) (fun o ho => hops o (List.mem_cons_of_mem op ho)) hstep.1 hstep.2

/-- C10: `isTaskCompleted` is a total function of the stored task record — it
never reverts — and on any task id that no call of the execution ever minted
it reads the zero record's flag, i.e. `false`: an unknown task is
indistinguishable from a pending one at the public interface. -/
theorem isTaskCompleted_unminted_false (cs : Nat → List Nat → List Nat → Bool)
    (ops : List Op) (t : Nat)
    (hops : ∀ op ∈ ops, mintsTask t op = false) :
    isTaskCompleted (exec cs initState ops) t = false := by
  have h := exec_preserves_unminted cs ops initState t hops rfl (fun r hr => hr.symm)
  exact h.1

/-- Witness for C10 at a concrete input: a run that registers a binding and
completes a decryption never mints task id 12345, and `isTaskCompleted`
returns `false` on it. -/
theorem isTaskCompleted_unminted_false_witness :
    isTaskCompleted
      (exec csTrue initState
        [.registerBinding 5 1 3 4 9, .requestBindingDecryption 5 2 7 1,
         .handleDecryption 7 [0] [1]])
      12345 = false :=
  isTaskCompleted_unminted_false csTrue
    [.registerBinding 5 1 3 4 9, .requestBindingDecryption 5 2 7 1,
     .handleDecryption 7 [0] [1]] 12345 (by decide)

/-! ### Claim C9: content-hash lookup, absent sentinel and last writer wins -/

/-- Does the call register a binding under content hash `h`? Only
`registerBinding` writes the content-hash index (`submitExternalEncryptedCount`
does not). -/
def registersHash (h : Nat) : Op → Bool
  | .registerBinding _ _ abiHash _ _ => abiHash == h
  | _ => false

theorem step_abiHash_unchanged (cs : Nat → List Nat → List Nat → Bool)
    (s : ContractState) (op : Op) (h : Nat)
    (hop : registersHash h op = false) :
    (step cs s op).abiHashToBinding h = s.abiHashToBinding h := by
  cases op with
  | registerBinding sender ts a m e =>
    simp only [registersHash, beq_eq_false_iff_ne, ne_eq] at hop
    simp only [step, stepFull, registerBinding]
    exact if_neg (fun he => hop he.symm)
  | submitExternalEncryptedCount sender ts count => rfl
  | requestBindingDecryption sender ts reqId bindingId =>
    by_cases hb : (s.bindings bindingId).id = 0 <;>
      simp [step, stepFull, requestBindingDecryption, hb]
  | requestCountDecryption sender ts reqId bindingId =>
    by_cases hb : (s.bindings bindingId).id = 0 <;>
      simp [step, stepFull, requestCountDecryption, hb]
  | handleDecryption reqId c p =>
    by_cases hz : s.requestToTaskId reqId = 0
    · simp [step, stepFull, handleDecryption, hz]
    · by_cases hc : (s.tasks (s.requestToTaskId reqId)).completed
      · simp [step, stepFull, handleDecryption, hz, hc]
      · cases hcs : cs reqId c p <;>
          simp [step, stepFull, handleDecryption, hz, hc, hcs]
  | handleCountDecryption reqId c p =>
    by_cases hz : s.requestToTaskId reqId = 0
    · simp [step, stepFull, handleCountDecryption, hz]
    · by_cases hc : (s.tasks (s.requestToTaskId reqId)).completed
      · simp [step, stepFull, handleCountDecryption, hz, hc]
      · cases hcs : cs reqId c p
        · simp [step, stepFull, handleCountDecryption, hz, hc, hcs]
        · by_cases hd : decodeUint32 c = none <;>
            simp [step, stepFull, handleCountDecryption, hz, hc, hcs, hd]

theorem exec_abiHash_unchanged (cs : Nat → List Nat → List Nat → Bool)
    (ops : List Op) (s : ContractState) (h : Nat)
    (hops : ∀ op ∈ ops, registersHash h op = false) :
    (exec cs s ops).abiHashToBinding h = s.abiHashToBinding h := by
  induction ops generalizing s with
  | nil => rfl
  | cons op ops ih =>
    rw [exec, List.foldl_cons]
    rw [show List.foldl (step cs) (step cs s op) ops = exec cs (step cs s op) ops from rfl]
    rw [ih (step cs s op) (fun o ho => hops o (List.mem_cons_of_mem op ho))]
    exact step_abiHash_unchanged cs s op h (hops op (List.mem_cons_self op ops))

/-- C9: `lookupBindingByAbi` returns the absent sentinel 0 on a content hash
no `registerBinding` call of the execution used, and when a register with hash
`h` is followed only by calls that do not register `h`, it returns the id that
register allocated — so with several registers of the same hash the most
recent one wins. -/
theorem lookupByContent_sentinel_and_last_writer
    (cs : Nat → List Nat → List Nat → Bool)
    (ops l1 l2 : List Op) (h sender ts m e : Nat) :
    ((∀ op ∈ ops, registersHash h op = false) →
      lookupBindingByAbi (exec cs initState ops) h = 0) ∧
    ((∀ op ∈ l2, registersHash h op = false) →
      lookupBindingByAbi (exec cs initState (l1 ++ Op.registerBinding sender ts h m e :: l2)) h =
        (registerBinding (exec cs initState l1) sender h m e ts).1) := by
  constructor
  · intro hops
    exact exec_abiHash_unchanged cs ops initState h hops
  · intro hops
    rw [lookupBindingByAbi, exec, List.foldl_append, List.foldl_cons]
    rw [show List.foldl (step cs) initState l1 = exec cs initState l1 from rfl]
    rw [show ∀ s0, List.foldl (step cs) s0 l2 = exec cs s0 l2 from fun _ => rfl]
    rw [exec_abiHash_unchanged cs l2 _ h hops]
    simp [step, stepFull, registerBinding]

/-- Witness for C9 at concrete inputs: with no register of hash 77 the lookup
is 0, and after two registers of hash 3 the lookup is the second id. -/
theorem lookupByContent_sentinel_and_last_writer_witness :
    lookupBindingByAbi
      (exec csTrue initState [Op.registerBinding 5 1 3 4 9]) 77 = 0 ∧
    lookupBindingByAbi
      (exec csTrue initState
        ([Op.registerBinding 5 1 3 4 9] ++ Op.registerBinding 6 2 3 8 10 :: [])) 3 =
      (registerBinding (exec csTrue initState [Op.registerBinding 5 1 3 4 9]) 6 3 8 10 2).1 :=
  ⟨(lookupByContent_sentinel_and_last_writer csTrue [Op.registerBinding 5 1 3 4 9] [] []
      77 6 2 8 10).1 (by decide),
   (lookupByContent_sentinel_and_last_writer csTrue [] [Op.registerBinding 5 1 3 4 9] []
      3 6 2 8 10).2 (by decide)⟩

/-! ### Claim C3: a failed proof leaves the task pending; a correct retry succeeds -/

/-- C3: for a pending task whose correlation entry maps `r` to it, a
`handleDecryption` callback whose proof fails verification reverts with the
`FHE.checkSignatures` failure, changing no state and emitting no event, and a
subsequent callback for the same `r` whose proof verifies still completes the
task. -/
theorem invalid_proof_leaves_pending (cs : Nat → List Nat → List Nat → Bool)
    (s : ContractState) (r tid : Nat) (c p c2 p2 : List Nat)
    (hmap : s.requestToTaskId r = tid) (h0 : tid ≠ 0)
    (hpend : (s.tasks tid).completed = false)
    (hbad : cs r c p = false) (hgood : cs r c2 p2 = true) :
    handleDecryption cs s r c p = .error .invalidProof ∧
    stepFull cs s (.handleDecryption r c p) = (s, [], []) ∧
    ∃ s2 evs, handleDecryption cs s r c2 p2 = .ok (s2, evs) ∧
      (s2.tasks tid).completed = true := by
  have hfail : handleDecryption cs s r c p = .error .invalidProof := by
    simp [handleDecryption, hmap, h0, hpend, hbad]
  refine ⟨hfail, ?_, ?_⟩
  · simp [stepFull, hfail]
  · refine ⟨{ s with tasks := fun k =>
        if k = tid then { s.tasks tid with completed := true } else s.tasks k },
      [Event.decryptionCompleted tid (s.tasks tid).bindingId], ?_, ?_⟩
    · simp [handleDecryption, hmap, h0, hpend, hgood]
    · simp

/-- Witness for C3 at a concrete input: a verification environment that
accepts only proof `[1]`; the callback with proof `[9]` reverts, the retry
with `[1]` completes the task. -/
theorem invalid_proof_leaves_pending_witness :
    handleDecryption (fun _ _ p => p == [1])
        (exec csTrue initState [.registerBinding 5 1 3 4 9, .requestBindingDecryption 5 2 7 1])
        7 [0] [9] = .error .invalidProof ∧
    stepFull (fun _ _ p => p == [1])
        (exec csTrue initState [.registerBinding 5 1 3 4 9, .requestBindingDecryption 5 2 7 1])
        (.handleDecryption 7 [0] [9]) =
      (exec csTrue initState [.registerBinding 5 1 3 4 9, .requestBindingDecryption 5 2 7 1],
        [], []) ∧
    ∃ s2 evs,
      handleDecryption (fun _ _ p => p == [1])
          (exec csTrue initState [.registerBinding 5 1 3 4 9, .requestBindingDecryption 5 2 7 1])
          7 [0] [1] = .ok (s2, evs) ∧
      (s2.tasks (bindingTaskId 1 2 5)).completed = true :=
  invalid_proof_leaves_pending (fun _ _ p => p == [1])
    (exec csTrue initState [.registerBinding 5 1 3 4 9, .requestBindingDecryption 5 2 7 1])
    7 (bindingTaskId 1 2 5) [0] [9] [0] [1]
    (by decide) (by decide) (by decide) (by decide) (by decide)

/-! ### Claim C1: a second completion for the same request id fails -/

/-- C1: once a completion callback for request id `r` has succeeded, a second
callback with the same `r` — through either handler, with any cleartexts,
proof or verification outcome — reverts with "Already completed", changes no
task state and emits nothing, and the `DecryptionCompleted` event of the task
is emitted exactly once across both calls (once by the first, zero times by
the second). -/
theorem second_completion_rejected (cs cs2 : Nat → List Nat → List Nat → Bool)
    (s s' : ContractState) (r : Nat) (c p c2 p2 : List Nat) (evs : List Event) :
    (handleDecryption cs s r c p = .ok (s', evs) →
      evs = [Event.decryptionCompleted (s.requestToTaskId r)
              ((s.tasks (s.requestToTaskId r)).bindingId)] ∧
      handleDecryption cs2 s' r c2 p2 = .error .alreadyCompleted ∧
      handleCountDecryption cs2 s' r c2 p2 = .error .alreadyCompleted ∧
      stepFull cs2 s' (.handleDecryption r c2 p2) = (s', [], []) ∧
      stepFull cs2 s' (.handleCountDecryption r c2 p2) = (s', [], [])) ∧
    (handleCountDecryption cs s r c p = .ok (s', evs) →
      evs = [Event.decryptionCompleted (s.requestToTaskId r)
              ((s.tasks (s.requestToTaskId r)).bindingId)] ∧
      handleDecryption cs2 s' r c2 p2 = .error .alreadyCompleted ∧
      handleCountDecryption cs2 s' r c2 p2 = .error .alreadyCompleted ∧
      stepFull cs2 s' (.handleDecryption r c2 p2) = (s', [], []) ∧
      stepFull cs2 s' (.handleCountDecryption r c2 p2) = (s', [], [])) := by
  constructor
  · intro h
    by_cases h1 : s.requestToTaskId r = 0
    · rw [handleDecryption] at h
      simp [h1] at h
    · by_cases h2 : (s.tasks (s.requestToTaskId r)).completed = true
      · rw [handleDecryption] at h
        simp [h1, h2] at h
      · by_cases h3 : cs r c p = false
        · rw [handleDecryption] at h
          simp [h1, h2, h3] at h
        · rw [handleDecryption] at h
          simp [h1, h2, h3] at h
          obtain ⟨hs, he⟩ := h
          subst hs
          subst he
          refine ⟨rfl, ?_, ?_, ?_, ?_⟩
          · simp [handleDecryption, h1]
          · simp [handleCountDecryption, h1]
          · simp [stepFull, handleDecryption, h1]
          · simp [stepFull, handleCountDecryption, h1]
  · intro h
    by_cases h1 : s.requestToTaskId r = 0
    · rw [handleCountDecryption] at h
      simp [h1] at h
    · by_cases h2 : (s.tasks (s.requestToTaskId r)).completed = true
      · rw [handleCountDecryption] at h
        simp [h1, h2] at h
      · by_cases h3 : cs r c p = false
        · rw [handleCountDecryption] at h
          simp [h1, h2, h3] at h
        · by_cases h4 : decodeUint32 c = none
          · rw [handleCountDecryption] at h
            simp [h1, h2, h3, h4] at h
          · rw [handleCountDecryption] at h
            simp [h1, h2, h3, h4] at h
            obtain ⟨hs, he⟩ := h
            subst hs
            subst he
            refine ⟨rfl, ?_, ?_, ?_, ?_⟩
            · simp [handleDecryption, h1]
            · simp [handleCountDecryption, h1]
            · simp [stepFull, handleDecryption, h1]
            · simp [stepFull, handleCountDecryption, h1]

/-- Witness for C1 at a concrete input: after the successful completion of
request 7, the replayed callback reverts and emits nothing. -/
theorem second_completion_rejected_witness :
    handleDecryption csTrue
        (exec csTrue initState [.registerBinding 5 1 3 4 9, .requestBindingDecryption 5 2 7 1])
        7 [0] [1] =
      .ok (exec csTrue initState
            [.registerBinding 5 1 3 4 9, .requestBindingDecryption 5 2 7 1,
             .handleDecryption 7 [0] [1]],
           [Event.decryptionCompleted (bindingTaskId 1 2 5) 1]) ∧
    ([Event.decryptionCompleted (bindingTaskId 1 2 5) 1] =
      [Event.decryptionCompleted
        ((exec csTrue initState
            [.registerBinding 5 1 3 4 9, .requestBindingDecryption 5 2 7 1]).requestToTaskId 7)
        (((exec csTrue initState
            [.registerBinding 5 1 3 4 9, .requestBindingDecryption 5 2 7 1]).tasks
          ((exec csTrue initState
            [.registerBinding 5 1 3 4 9, .requestBindingDecryption 5 2 7 1]).requestToTaskId 7)).bindingId)] ∧
     handleDecryption csTrue
        (exec csTrue initState
          [.registerBinding 5 1 3 4 9, .requestBindingDecryption 5 2 7 1,
           .handleDecryption 7 [0] [1]]) 7 [2] [3] = .error .alreadyCompleted ∧
     handleCountDecryption csTrue
        (exec csTrue initState
          [.registerBinding 5 1 3 4 9, .requestBindingDecryption 5 2 7 1,
           .handleDecryption 7 [0] [1]]) 7 [2] [3] = .error .alreadyCompleted ∧
     stepFull csTrue
        (exec csTrue initState
          [.registerBinding 5 1 3 4 9, .requestBindingDecryption 5 2 7 1,
           .handleDecryption 7 [0] [1]]) (.handleDecryption 7 [2] [3]) =
      (exec csTrue initState
          [.registerBinding 5 1 3 4 9, .requestBindingDecryption 5 2 7 1,
           .handleDecryption 7 [0] [1]], [], []) ∧
     stepFull csTrue
        (exec csTrue initState
          [.registerBinding 5 1 3 4 9, .requestBindingDecryption 5 2 7 1,
           .handleDecryption 7 [0] [1]]) (.handleCountDecryption 7 [2] [3]) =
      (exec csTrue initState
          [.registerBinding 5 1 3 4 9, .requestBindingDecryption 5 2 7 1,
           .handleDecryption 7 [0] [1]], [], [])) :=
  have hok : handleDecryption csTrue
      (exec csTrue initState [.registerBinding 5 1 3 4 9, .requestBindingDecryption 5 2 7 1])
      7 [0] [1] =
    .ok (exec csTrue initState
          [.registerBinding 5 1 3 4 9, .requestBindingDecryption 5 2 7 1,
           .handleDecryption 7 [0] [1]],
         [Event.decryptionCompleted (bindingTaskId 1 2 5) 1]) := rfl
  ⟨hok,
   (second_completion_rejected csTrue csTrue
      (exec csTrue initState [.registerBinding 5 1 3 4 9, .requestBindingDecryption 5 2 7 1])
      (exec csTrue initState
        [.registerBinding 5 1 3 4 9, .requestBindingDecryption 5 2 7 1,
         .handleDecryption 7 [0] [1]])
      7 [0] [1] [2] [3]
      [Event.decryptionCompleted (bindingTaskId 1 2 5) 1]).1 hok⟩

/-! ### Claim C2: correlation entries are never removed, only spent -/

/-- C2 counterexample: after the completion of request 7 succeeds, the
correlation entry still exists (`requestToTaskId 7` is non-zero) while its
task is completed — refuting "a correlation entry exists if and only if its
task is not yet completed" under physical removal. -/
theorem correlation_persists_after_completion_cex :
    (exec csTrue initState
      [.registerBinding 5 1 3 4 9, .requestBindingDecryption 5 2 7 1,
       .handleDecryption 7 [0] [1]]).requestToTaskId 7 ≠ 0 ∧
    ((exec csTrue initState
      [.registerBinding 5 1 3 4 9, .requestBindingDecryption 5 2 7 1,
       .handleDecryption 7 [0] [1]]).tasks
      ((exec csTrue initState
        [.registerBinding 5 1 3 4 9, .requestBindingDecryption 5 2 7 1,
         .handleDecryption 7 [0] [1]]).requestToTaskId 7)).completed = true := by
  constructor
  · decide
  · decide

/-- C2 amended: the correlation entry is not physically removed — the mapping
is unchanged by the completion — but it is marked spent atomically with the
task's transition: in the same successful callback the task's `completed`
flag is set, and any replayed callback with the same request id (through
either handler) reverts with "Already completed", so it cannot complete the
task twice. -/
theorem correlation_spent_with_completion (cs : Nat → List Nat → List Nat → Bool)
    (s s' : ContractState) (r : Nat) (c p : List Nat) (evs : List Event)
    (h : handleDecryption cs s r c p = .ok (s', evs)) :
    s'.requestToTaskId = s.requestToTaskId ∧
    (s'.tasks (s.requestToTaskId r)).completed = true ∧
    (∀ cs2 c2 p2, handleDecryption cs2 s' r c2 p2 = .error .alreadyCompleted) ∧
    (∀ cs2 c2 p2, handleCountDecryption cs2 s' r c2 p2 = .error .alreadyCompleted) := by
  by_cases h1 : s.requestToTaskId r = 0
  · rw [handleDecryption] at h
    simp [h1] at h
  · by_cases h2 : (s.tasks (s.requestToTaskId r)).completed = true
    · rw [handleDecryption] at h
      simp [h1, h2] at h
    · by_cases h3 : cs r c p = false
      · rw [handleDecryption] at h
        simp [h1, h2, h3] at h
      · rw [handleDecryption] at h
        simp [h1, h2, h3] at h
        obtain ⟨hs, he⟩ := h
        subst hs
        refine ⟨rfl, by simp, ?_, ?_⟩
        · intro cs2 c2 p2
          simp [handleDecryption, h1]
        · intro cs2 c2 p2
          simp [handleCountDecryption, h1]

/-- Witness for C2 (amended) at a concrete input: completing request 7. -/
theorem correlation_spent_with_completion_witness :
    (exec csTrue initState
        [.registerBinding 5 1 3 4 9, .requestBindingDecryption 5 2 7 1,
         .handleDecryption 7 [0] [1]]).requestToTaskId =
      (exec csTrue initState
        [.registerBinding 5 1 3 4 9, .requestBindingDecryption 5 2 7 1]).requestToTaskId ∧
    ((exec csTrue initState
        [.registerBinding 5 1 3 4 9, .requestBindingDecryption 5 2 7 1,
         .handleDecryption 7 [0] [1]]).tasks
      ((exec csTrue initState
        [.registerBinding 5 1 3 4 9, .requestBindingDecryption 5 2 7 1]).requestToTaskId 7)).completed
      = true ∧
    (∀ cs2 c2 p2, handleDecryption cs2
        (exec csTrue initState
          [.registerBinding 5 1 3 4 9, .requestBindingDecryption 5 2 7 1,
           .handleDecryption 7 [0] [1]]) 7 c2 p2 = .error .alreadyCompleted) ∧
    (∀ cs2 c2 p2, handleCountDecryption cs2
        (exec csTrue initState
          [.registerBinding 5 1 3 4 9, .requestBindingDecryption 5 2 7 1,
           .handleDecryption 7 [0] [1]]) 7 c2 p2 = .error .alreadyCompleted) :=
  correlation_spent_with_completion csTrue
    (exec csTrue initState [.registerBinding 5 1 3 4 9, .requestBindingDecryption 5 2 7 1])
    (exec csTrue initState
      [.registerBinding 5 1 3 4 9, .requestBindingDecryption 5 2 7 1,
       .handleDecryption 7 [0] [1]])
    7 [0] [1] [Event.decryptionCompleted (bindingTaskId 1 2 5) 1] rfl

/-! ### Claim C4: uniqueness of minted task ids -/

/-- C4 counterexample: two distinct decryption requests (distinct oracle
request ids 7 and 8) by the same requester for the same binding at the same
timestamp receive the same task id, and the later request overwrites the
earlier request's task — resetting its completed flag to pending. -/
theorem taskid_collision_overwrites_cex :
    ((requestBindingDecryption (exec csTrue initState [.registerBinding 5 1 3 4 9])
        5 2 7 1).toOption.map (fun o => o.1) = some (bindingTaskId 1 2 5)) ∧
    ((requestBindingDecryption
        (exec csTrue initState
          [.registerBinding 5 1 3 4 9, .requestBindingDecryption 5 2 7 1,
           .handleDecryption 7 [0] [1]])
        5 2 8 1).toOption.map (fun o => o.1) = some (bindingTaskId 1 2 5)) ∧
    isTaskCompleted
      (exec csTrue initState
        [.registerBinding 5 1 3 4 9, .requestBindingDecryption 5 2 7 1,
         .handleDecryption 7 [0] [1]]) (bindingTaskId 1 2 5) = true ∧
    isTaskCompleted
      (exec csTrue initState
        [.registerBinding 5 1 3 4 9, .requestBindingDecryption 5 2 7 1,
         .handleDecryption 7 [0] [1], .requestBindingDecryption 5 2 8 1])
      (bindingTaskId 1 2 5) = false := by
  refine ⟨by decide, by decide, by decide, by decide⟩

/-- C4 amended: task ids are deterministic hashes of the request's packed
inputs. Two requests whose inputs differ (within the packed widths: binding
id and timestamp below `2^256`, requester below `2^160`) receive distinct
task ids — also across the two request paths — and a request whose minted id
differs from `t` leaves task `t` untouched; but two requests with identical
inputs receive the identical id (the iff below), and the later one overwrites
the task, as the counterexample shows. -/
theorem taskId_determined_by_inputs (b ts a b' ts' a' : Nat)
    (hb : b < 256 ^ 32) (hts : ts < 256 ^ 32) (ha : a < 256 ^ 20)
    (hb' : b' < 256 ^ 32) (hts' : ts' < 256 ^ 32) (ha' : a' < 256 ^ 20) :
    (bindingTaskId b ts a = bindingTaskId b' ts' a' ↔ b = b' ∧ ts = ts' ∧ a = a') ∧
    (countTaskId b ts = countTaskId b' ts' ↔ b = b' ∧ ts = ts') ∧
    bindingTaskId b ts a ≠ countTaskId b' ts' ∧
    (∀ cs s rid t, bindingTaskId b' ts' a' ≠ t →
      (step cs s (.requestBindingDecryption a' ts' rid b')).tasks t = s.tasks t) ∧
    (∀ cs s rid t, countTaskId b' ts' ≠ t →
      (step cs s (.requestCountDecryption a' ts' rid b')).tasks t = s.tasks t) := by
  refine ⟨bindingTaskId_inj b ts a b' ts' a' hb hts ha hb' hts' ha',
    countTaskId_inj b ts b' ts' hb hts hb' hts',
    bindingTaskId_ne_countTaskId b ts a b' ts', ?_, ?_⟩
  · intro cs s rid t hne
    by_cases hbng : (s.bindings b').id = 0
    · simp [step, stepFull, requestBindingDecryption, hbng]
    · simp [step, stepFull, requestBindingDecryption, hbng]
      exact fun he => absurd he.symm hne
  · intro cs s rid t hne
    by_cases hbng : (s.bindings b').id = 0
    · simp [step, stepFull, requestCountDecryption, hbng]
    · simp [step, stepFull, requestCountDecryption, hbng]
      exact fun he => absurd he.symm hne

/-- Witness for C4 (amended) at concrete inputs. -/
theorem taskId_determined_by_inputs_witness :
    (bindingTaskId 1 2 5 = bindingTaskId 1 3 5 ↔ 1 = 1 ∧ 2 = 3 ∧ 5 = 5) ∧
    (countTaskId 1 2 = countTaskId 1 3 ↔ 1 = 1 ∧ 2 = 3) ∧
    bindingTaskId 1 2 5 ≠ countTaskId 1 3 ∧
    (step csTrue (exec csTrue initState [.registerBinding 5 1 3 4 9])
        (.requestBindingDecryption 5 3 7 1)).tasks (bindingTaskId 1 2 5) =
      (exec csTrue initState [.registerBinding 5 1 3 4 9]).tasks (bindingTaskId 1 2 5) ∧
    (step csTrue (exec csTrue initState [.registerBinding 5 1 3 4 9])
        (.requestCountDecryption 5 3 7 1)).tasks (bindingTaskId 1 2 5) =
      (exec csTrue initState [.registerBinding 5 1 3 4 9]).tasks (bindingTaskId 1 2 5) :=
  have h := taskId_determined_by_inputs 1 2 5 1 3 5
    (by norm_num) (by norm_num) (by norm_num) (by norm_num) (by norm_num) (by norm_num)
  ⟨h.1, h.2.1, h.2.2.1,
    h.2.2.2.1 csTrue (exec csTrue initState [.registerBinding 5 1 3 4 9]) 7
      (bindingTaskId 1 2 5)
      (by
        intro he
        have := (bindingTaskId_inj 1 3 5 1 2 5 (by norm_num) (by norm_num) (by norm_num)
          (by norm_num) (by norm_num) (by norm_num)).mp he
        omega),
    h.2.2.2.2 csTrue (exec csTrue initState [.registerBinding 5 1 3 4 9]) 7
      (bindingTaskId 1 2 5)
      (fun he => bindingTaskId_ne_countTaskId 1 2 5 1 3 he.symm)⟩

/-! ### Claim C5: transitions of the completion flag -/

/-- C5 counterexample: the completion flag of a task does transition from
true back to false: after request 7 for binding 1 is completed, a second
request with the same binding, timestamp and sender mints the same task id
and overwrites the task, resetting the flag. -/
theorem completed_flag_resets_cex :
    isTaskCompleted
      (exec csTrue initState
        [.registerBinding 5 1 3 4 9, .requestBindingDecryption 5 2 7 1,
         .handleDecryption 7 [0] [1]]) (bindingTaskId 1 2 5) = true ∧
    isTaskCompleted
      (exec csTrue initState
        [.registerBinding 5 1 3 4 9, .requestBindingDecryption 5 2 7 1,
         .handleDecryption 7 [0] [1], .requestBindingDecryption 5 2 8 1])
      (bindingTaskId 1 2 5) = false ∧
    mintsTask (bindingTaskId 1 2 5) (.requestBindingDecryption 5 2 8 1) = true := by
  refine ⟨by decide, by decide, by decide⟩

/-- C5 amended: across any single call, the completion flag of task `t` drops
from true to false only when the call is a decryption request whose minted
task id collides with `t` (overwriting the task), and it rises from false to
true only through a completion callback whose request id currently maps to
`t` and whose proof verifies. -/
theorem completed_flag_transition_characterization
    (cs : Nat → List Nat → List Nat → Bool) (s : ContractState) (op : Op) (t : Nat) :
    ((s.tasks t).completed = true → ((step cs s op).tasks t).completed = false →
      (∃ sender ts rid b, op = .requestBindingDecryption sender ts rid b ∧
        bindingTaskId b ts sender = t) ∨
      (∃ sender ts rid b, op = .requestCountDecryption sender ts rid b ∧
        countTaskId b ts = t)) ∧
    ((s.tasks t).completed = false → ((step cs s op).tasks t).completed = true →
      ∃ rid c p, (op = .handleDecryption rid c p ∨ op = .handleCountDecryption rid c p) ∧
        s.requestToTaskId rid = t ∧ cs rid c p = true) := by
  cases op with
  | registerBinding sender ts a m e =>
    have hT : ((step cs s (.registerBinding sender ts a m e)).tasks t) = s.tasks t := rfl
    refine ⟨fun h1 h2 => ?_, fun h1 h2 => ?_⟩ <;>
      · rw [hT, h1] at h2
        exact Bool.noConfusion h2
  | submitExternalEncryptedCount sender ts count =>
    have hT : ((step cs s (.submitExternalEncryptedCount sender ts count)).tasks t) =
        s.tasks t := rfl
    refine ⟨fun h1 h2 => ?_, fun h1 h2 => ?_⟩ <;>
      · rw [hT, h1] at h2
        exact Bool.noConfusion h2
  | requestBindingDecryption sender ts rid b =>
    by_cases hb : (s.bindings b).id = 0
    · have hT : ((step cs s (.requestBindingDecryption sender ts rid b)).tasks t) =
          s.tasks t := by
        simp [step, stepFull, requestBindingDecryption, hb]
      refine ⟨fun h1 h2 => ?_, fun h1 h2 => ?_⟩ <;>
        · rw [hT, h1] at h2
          exact Bool.noConfusion h2
    · have hstep : step cs s (.requestBindingDecryption sender ts rid b) =
        { s with
          tasks := fun k =>
            if k = bindingTaskId b ts sender then
              ⟨bindingTaskId b ts sender, b, sender, false, ts⟩
            else s.tasks k
          requestToTaskId := fun q =>
            if q = rid then bindingTaskId b ts sender else s.requestToTaskId q } := by
        simp [step, stepFull, requestBindingDecryption, hb]
      refine ⟨fun h1 h2 => ?_, fun h1 h2 => ?_⟩
      · by_cases ht : t = bindingTaskId b ts sender
        · exact Or.inl ⟨sender, ts, rid, b, rfl, ht.symm⟩
        · rw [hstep] at h2
          dsimp only at h2
          rw [if_neg ht, h1] at h2
          exact Bool.noConfusion h2
      · rw [hstep] at h2
        dsimp only at h2
        by_cases ht : t = bindingTaskId b ts sender
        · rw [if_pos ht] at h2
          exact Bool.noConfusion h2
        · rw [if_neg ht, h1] at h2
          exact Bool.noConfusion h2
  | requestCountDecryption sender ts rid b =>
    by_cases hb : (s.bindings b).id = 0
    · have hT : ((step cs s (.requestCountDecryption sender ts rid b)).tasks t) =
          s.tasks t := by
        simp [step, stepFull, requestCountDecryption, hb]
      refine ⟨fun h1 h2 => ?_, fun h1 h2 => ?_⟩ <;>
        · rw [hT, h1] at h2
          exact Bool.noConfusion h2
    · have hstep : step cs s (.requestCountDecryption sender ts rid b) =
        { s with
          tasks := fun k =>
            if k = countTaskId b ts then
              ⟨countTaskId b ts, b, sender, false, ts⟩
            else s.tasks k
          requestToTaskId := fun q =>
            if q = rid then countTaskId b ts else s.requestToTaskId q } := by
        simp [step, stepFull, requestCountDecryption, hb]
      refine ⟨fun h1 h2 => ?_, fun h1 h2 => ?_⟩
      · by_cases ht : t = countTaskId b ts
        · exact Or.inr ⟨sender, ts, rid, b, rfl, ht.symm⟩
        · rw [hstep] at h2
          dsimp only at h2
          rw [if_neg ht, h1] at h2
          exact Bool.noConfusion h2
      · rw [hstep] at h2
        dsimp only at h2
        by_cases ht : t = countTaskId b ts
        · rw [if_pos ht] at h2
          exact Bool.noConfusion h2
        · rw [if_neg ht, h1] at h2
          exact Bool.noConfusion h2
  | handleDecryption rid c p =>
    by_cases hz : s.requestToTaskId rid = 0
    · have hT : ((step cs s (.handleDecryption rid c p)).tasks t) = s.tasks t := by
        simp [step, stepFull, handleDecryption, hz]
      refine ⟨fun h1 h2 => ?_, fun h1 h2 => ?_⟩ <;>
        · rw [hT, h1] at h2
          exact Bool.noConfusion h2
    · by_cases hc : (s.tasks (s.requestToTaskId rid)).completed = true
      · have hT : ((step cs s (.handleDecryption rid c p)).tasks t) = s.tasks t := by
          simp [step, stepFull, handleDecryption, hz, hc]
        refine ⟨fun h1 h2 => ?_, fun h1 h2 => ?_⟩ <;>
          · rw [hT, h1] at h2
            exact Bool.noConfusion h2
      · cases hcs : cs rid c p with
        | false =>
          have hT : ((step cs s (.handleDecryption rid c p)).tasks t) = s.tasks t := by
            simp [step, stepFull, handleDecryption, hz, hc, hcs]
          refine ⟨fun h1 h2 => ?_, fun h1 h2 => ?_⟩ <;>
            · rw [hT, h1] at h2
              exact Bool.noConfusion h2
        | true =>
          have hstep : step cs s (.handleDecryption rid c p) =
            { s with
              tasks := fun k =>
                if k = s.requestToTaskId rid then
                  { s.tasks (s.requestToTaskId rid) with completed := true }
                else s.tasks k } := by
            simp [step, stepFull, handleDecryption, hz, hc, hcs]
          refine ⟨fun h1 h2 => ?_, fun h1 h2 => ?_⟩
          · by_cases ht : t = s.requestToTaskId rid
            · rw [ht] at h1
              exact absurd h1 hc
            · rw [hstep] at h2
              dsimp only at h2
              rw [if_neg ht, h1] at h2
              exact Bool.noConfusion h2
          · by_cases ht : t = s.requestToTaskId rid
            · exact ⟨rid, c, p, Or.inl rfl, ht.symm, hcs⟩
            · rw [hstep] at h2
              dsimp only at h2
              rw [if_neg ht, h1] at h2
              exact Bool.noConfusion h2
  | handleCountDecryption rid c p =>
    by_cases hz : s.requestToTaskId rid = 0
    · have hT : ((step cs s (.handleCountDecryption rid c p)).tasks t) = s.tasks t := by
        simp [step, stepFull, handleCountDecryption, hz]
      refine ⟨fun h1 h2 => ?_, fun h1 h2 => ?_⟩ <;>
        · rw [hT, h1] at h2
          exact Bool.noConfusion h2
    · by_cases hc : (s.tasks (s.requestToTaskId rid)).completed = true
      · have hT : ((step cs s (.handleCountDecryption rid c p)).tasks t) = s.tasks t := by
          simp [step, stepFull, handleCountDecryption, hz, hc]
        refine ⟨fun h1 h2 => ?_, fun h1 h2 => ?_⟩ <;>
          · rw [hT, h1] at h2
            exact Bool.noConfusion h2
      · cases hcs : cs rid c p with
        | false =>
          have hT : ((step cs s (.handleCountDecryption rid c p)).tasks t) = s.tasks t := by
            simp [step, stepFull, handleCountDecryption, hz, hc, hcs]
          refine ⟨fun h1 h2 => ?_, fun h1 h2 => ?_⟩ <;>
            · rw [hT, h1] at h2
              exact Bool.noConfusion h2
        | true =>
          by_cases hd : decodeUint32 c = none
          · have hT : ((step cs s (.handleCountDecryption rid c p)).tasks t) =
                s.tasks t := by
              simp [step, stepFull, handleCountDecryption, hz, hc, hcs, hd]
            refine ⟨fun h1 h2 => ?_, fun h1 h2 => ?_⟩ <;>
              · rw [hT, h1] at h2
                exact Bool.noConfusion h2
          · have hstep : step cs s (.handleCountDecryption rid c p) =
              { s with
                tasks := fun k =>
                  if k = s.requestToTaskId rid then
                    { s.tasks (s.requestToTaskId rid) with completed := true }
                  else s.tasks k } := by
              simp [step, stepFull, handleCountDecryption, hz, hc, hcs, hd]
            refine ⟨fun h1 h2 => ?_, fun h1 h2 => ?_⟩
            · by_cases ht : t = s.requestToTaskId rid
              · rw [ht] at h1
                exact absurd h1 hc
              · rw [hstep] at h2
                dsimp only at h2
                rw [if_neg ht, h1] at h2
                exact Bool.noConfusion h2
            · by_cases ht : t = s.requestToTaskId rid
              · exact ⟨rid, c, p, Or.inr rfl, ht.symm, hcs⟩
              · rw [hstep] at h2
                dsimp only at h2
                rw [if_neg ht, h1] at h2
                exact Bool.noConfusion h2

/-- Witness for C5 (amended): a verified completion of request 7 raises task
`bindingTaskId 1 2 5` from pending to completed, and the characterization
names the callback that did it. -/
theorem completed_flag_transition_characterization_witness :
    ∃ rid c p,
      (Op.handleDecryption 7 [0] [1] = .handleDecryption rid c p ∨
       Op.handleDecryption 7 [0] [1] = .handleCountDecryption rid c p) ∧
      (exec csTrue initState
        [.registerBinding 5 1 3 4 9, .requestBindingDecryption 5 2 7 1]).requestToTaskId rid =
        bindingTaskId 1 2 5 ∧
      csTrue rid c p = true :=
  (completed_flag_transition_characterization csTrue
    (exec csTrue initState [.registerBinding 5 1 3 4 9, .requestBindingDecryption 5 2 7 1])
    (.handleDecryption 7 [0] [1]) (bindingTaskId 1 2 5)).2 (by decide) (by decide)

/-! ### Claim C6: decode failure during a completion callback -/

/-- C6 counterexample: a `handleCountDecryption` callback whose proof
verifies (`csTrue`) but whose cleartexts do not decode as a `uint32` (the
empty byte string) reverts with the decode failure, and the task does not
transition to Completed — the decode failure does prevent the completion. -/
theorem decode_failure_blocks_completion_cex :
    errOf (handleCountDecryption csTrue
      (exec csTrue initState
        [.submitExternalEncryptedCount 5 1 9, .requestCountDecryption 5 2 7 1])
      7 [] []) = some .decodeFailure ∧
    isTaskCompleted
      (step csTrue
        (exec csTrue initState
          [.submitExternalEncryptedCount 5 1 9, .requestCountDecryption 5 2 7 1])
        (.handleCountDecryption 7 [] [])) (countTaskId 1 2) = false ∧
    csTrue 7 [] [] = true := by
  refine ⟨by decide, by decide, by decide⟩

/-- C6 amended: in `handleCountDecryption` a decode failure reverts the whole
callback: the task stays pending, nothing changes and no event is emitted;
the completion takes effect only on a later callback whose cleartexts decode
(and whose proof verifies). (`handleDecryption` performs no on-chain decode,
so there completion indeed never depends on decoding.) -/
theorem count_decode_failure_reverts (cs : Nat → List Nat → List Nat → Bool)
    (s : ContractState) (r tid : Nat) (c p : List Nat)
    (hmap : s.requestToTaskId r = tid) (h0 : tid ≠ 0)
    (hpend : (s.tasks tid).completed = false)
    (hsig : cs r c p = true) (hdec : decodeUint32 c = none) :
    handleCountDecryption cs s r c p = .error .decodeFailure ∧
    stepFull cs s (.handleCountDecryption r c p) = (s, [], []) ∧
    (∀ c2 p2, cs r c2 p2 = true → decodeUint32 c2 ≠ none →
      ∃ s2 evs, handleCountDecryption cs s r c2 p2 = .ok (s2, evs) ∧
        (s2.tasks tid).completed = true) := by
  have hfail : handleCountDecryption cs s r c p = .error .decodeFailure := by
    simp [handleCountDecryption, hmap, h0, hpend, hsig, hdec]
  refine ⟨hfail, by simp [stepFull, hfail], ?_⟩
  intro c2 p2 hsig2 hdec2
  refine ⟨{ s with tasks := fun k =>
      if k = tid then { s.tasks tid with completed := true } else s.tasks k },
    [Event.decryptionCompleted tid (s.tasks tid).bindingId], ?_, ?_⟩
  · simp [handleCountDecryption, hmap, h0, hpend, hsig2, hdec2]
  · simp

/-- Witness for C6 (amended) at a concrete input: the undecodable callback on
request 7 reverts; the retry with a well-formed 32-byte word succeeds. -/
theorem count_decode_failure_reverts_witness :
    handleCountDecryption csTrue
        (exec csTrue initState
          [.submitExternalEncryptedCount 5 1 9, .requestCountDecryption 5 2 7 1])
        7 [] [] = .error .decodeFailure ∧
    stepFull csTrue
        (exec csTrue initState
          [.submitExternalEncryptedCount 5 1 9, .requestCountDecryption 5 2 7 1])
        (.handleCountDecryption 7 [] []) =
      (exec csTrue initState
        [.submitExternalEncryptedCount 5 1 9, .requestCountDecryption 5 2 7 1], [], []) ∧
    (∀ c2 p2, csTrue 7 c2 p2 = true → decodeUint32 c2 ≠ none →
      ∃ s2 evs,
        handleCountDecryption csTrue
          (exec csTrue initState
            [.submitExternalEncryptedCount 5 1 9, .requestCountDecryption 5 2 7 1])
          7 c2 p2 = .ok (s2, evs) ∧
        (s2.tasks (countTaskId 1 2)).completed = true) :=
  count_decode_failure_reverts csTrue
    (exec csTrue initState
      [.submitExternalEncryptedCount 5 1 9, .requestCountDecryption 5 2 7 1])
    7 (countTaskId 1 2) [] []
    (by decide) (by decide) (by decide) (by decide) (by decide)
